import Mathlib

/-!
# Verification development for `google_analytics/aggregation.py`

A shallow embedding of the dataframe pipeline in
`src/google_analytics/aggregation.py`, together with theorems settling the
frozen claims about it.

Modelling conventions:
* a pandas cell is a `Value`: a string, a rational number, or `null` (NaN);
* a dataframe row is an association list from column names to values
  (`Row`), and a dataframe (`Frame`) is a column list plus a row list;
* pandas `sum`/`mean` skip NaN, `groupby` sorts its keys ascending and drops
  NaN keys, `pd.get_dummies` produces one indicator column per distinct
  non-null value in sorted order — all mirrored below;
* dates are modelled as rational day numbers;
* exceptions are modelled with `Except`.
-/

/-- A pandas cell: string, numeric (floats/ints as `ℚ`), or NaN. -/
inductive Value where
  | str (s : String)
  | num (q : ℚ)
  | null
deriving DecidableEq

/-- Numeric view of a cell; NaN and strings act as 0 (pandas sums skip NaN). -/
def Value.toQ : Value → ℚ
  | .num q => q
  | _ => 0

/-- The string used when a cell is interpolated into a column name
(`str(value)` in Python). -/
def Value.asStr : Value → String
  | .str s => s
  | .num q => toString q
  | .null => "nan"

/-- A dataframe row: association list from column name to cell value.
Row functions are always called by their full name (`Row.get r c`). -/
abbrev Row : Type := List (String × Value)

/-- Column lookup in a row; a missing column reads as NaN. -/
def Row.get : Row → String → Value
  | [], _ => .null
  | p :: r, c => if p.1 = c then p.2 else Row.get r c

/-- In-place overwrite of one column's value in a row
(`df.loc[mask, col] = v` touches only the entries of column `col`). -/
def Row.setVal (r : Row) (c : String) (v : Value) : Row :=
  r.map (fun p => if p.1 = c then (c, v) else p)

/-- A dataframe: ordered column names and ordered rows. -/
structure Frame where
  cols : List String
  rows : List Row
deriving DecidableEq

/-- Filter by a decidable predicate (pandas boolean-mask selection). -/
def filterP (P : α → Prop) [DecidablePred P] : List α → List α
  | [] => []
  | a :: as => if P a then a :: filterP P as else filterP P as

/-- The values of one column, in row order (`df[col]`). -/
def Frame.colValues (fr : Frame) (c : String) : List Value :=
  fr.rows.map (fun r => Row.get r c)

/-- Column selection `df[cols]`: rows are rebuilt in the order of `cs`. -/
def Frame.select (fr : Frame) (cs : List String) : Frame :=
  ⟨cs, fr.rows.map (fun r => cs.map (fun c => (c, Row.get r c)))⟩

/-- First-occurrence deduplication (pandas keeps the first of each value). -/
def dedupKeep (seen : List Value) : List Value → List Value
  | [] => []
  | v :: vs => if v ∈ seen then dedupKeep seen vs else v :: dedupKeep (v :: seen) vs

/-- `pd.unique`: distinct values in order of first appearance. -/
def uniqueVals (vs : List Value) : List Value := dedupKeep [] vs

/-- Bool lexicographic order on lists of naturals. -/
def natListLeB : List ℕ → List ℕ → Bool
  | [], _ => true
  | _ :: _, [] => false
  | a :: as, b :: bs => if a < b then true else if b < a then false else natListLeB as bs

/-- Sort key of a string: its character codes. -/
def strKey (s : String) : List ℕ := s.data.map Char.toNat

/-- Total preorder on cells used when pandas sorts group keys ascending. -/
def Value.leB : Value → Value → Bool
  | .null, _ => true
  | _, .null => false
  | .num a, .num b => if a ≤ b then true else false
  | .num _, .str _ => true
  | .str _, .num _ => false
  | .str a, .str b => natListLeB (strKey a) (strKey b)

/-- Ascending stable sort of cell values. -/
def sortVals (vs : List Value) : List Value :=
  vs.insertionSort (fun a b => Value.leB a b = true)

/-- Group keys of `df.groupby(c)`: distinct non-null values of the column,
sorted ascending (pandas `groupby` drops NaN keys and sorts). -/
def Frame.groupKeys (fr : Frame) (c : String) : List Value :=
  sortVals (uniqueVals (filterP (fun v => ¬ v = Value.null) (fr.colValues c)))

/-! ## `reduce_df` (lines 13–72): chunked ingest

Three aspects of `reduce_df` are embedded:
* `processChunk` — the column-selection step with its `KeyError` recovery
  (lines 42–54): missing target columns are filled with zeroes and logged;
* `reduce_df_run` — the control flow of the whole function, tracking whether
  the temporary directory `../data/temp` still exists when control returns
  (created at lines 19–21, removed only at line 72);
* `reduce_df_concat` — the concatenation loop over the temporary files
  (lines 60–69), which keeps the header line of the first file only.

A raw chunk is `Option Frame`: `none` stands for a chunk whose JSON columns
fail to parse (the `json.loads` converters raise, which aborts `read_csv`);
`some fr` is the chunk after JSON flattening and date parsing. -/

/-- The fixed list of ten target columns of `reduce_df` (lines 43–44). -/
def reduce_df_target_cols : List String :=
  ["date", "fullVisitorId", "operatingSystem", "country", "browser",
   "pageviews", "transactions", "visits", "transactionRevenue", "visitStartTime"]

/-- `chunk[col] = [0] * len(chunk)`: append a column of integer zeroes. -/
def Frame.addZeroCol (fr : Frame) (c : String) : Frame :=
  ⟨fr.cols ++ [c], fr.rows.map (fun r => r ++ [(c, Value.num 0)])⟩

/-- The log line printed for a column missing from a chunk (line 52). -/
def missingMsg (c : String) (i : ℕ) : String :=
  "Column " ++ c ++ " was not found in chunk " ++ toString i ++ ", filling with zeroes"

/-- Lines 45–54: `try: chunk = chunk[cols] except KeyError:` — the missing
columns (recovered from the error message by regex) are filled with zeroes
and logged, then the selection is retried. Returns the selected chunk and
the log messages. -/
def processChunk (i : ℕ) (chunk : Frame) : Frame × List String :=
  let missing := filterP (fun c => ¬ c ∈ chunk.cols) reduce_df_target_cols
  if missing = [] then
    (chunk.select reduce_df_target_cols, [])
  else
    let filled := missing.foldl Frame.addZeroCol chunk
    (filled.select reduce_df_target_cols, missing.map (fun c => missingMsg c i))

/-- The chunk loop of `reduce_df` (lines 25–58). A `none` chunk raises the
JSON parse error, which propagates (spec §4.1: fatal by design). -/
def reduce_df_chunks (i : ℕ) : List (Option Frame) → Except String (List (Frame × List String))
  | [] => .ok []
  | none :: _ => .error "JSONDecodeError"
  | some chunk :: rest =>
    match reduce_df_chunks (i + 1) rest with
    | .error e => .error e
    | .ok outs => .ok (processChunk i chunk :: outs)

/-- The whole of `reduce_df`, tracking the lifetime of the temporary
directory. The second component tells whether `../data/temp` still exists
when control returns: the code reaches `shutil.rmtree` (line 72) only after
the loop and the concatenation complete normally; an exception propagates
with the directory still in place (there is no `try`/`finally`). -/
def reduce_df_run (chunks : List (Option Frame)) :
    Except String (List (Frame × List String)) × Bool :=
  match reduce_df_chunks 0 chunks with
  | .error e => (.error e, true)
  | .ok outs => (.ok outs, false)

/-- Lines 62–69: concatenate the files in the order `glob.glob` returned
them (`files` is a name/lines pair list in directory-listing order), keeping
the header line (`infile.readline()` is thrown away) on all but the first
file. `glob.glob` returns the listing in arbitrary order; no sorting is
applied by the code. -/
def reduce_df_concat (files : List (String × List String)) : List String :=
  files.enum.flatMap (fun p => if p.1 = 0 then p.2.2 else p.2.2.drop 1)

/-- Filename-sorted reordering of a directory listing (what the claim says
the code concatenates in; the code itself never sorts). -/
def sortFilesByName (files : List (String × List String)) : List (String × List String) :=
  files.insertionSort (fun a b => natListLeB (strKey a.1) (strKey b.1) = true)

/-- A directory listing whose arbitrary `glob` order is not filename-sorted:
two chunk files with distinct bodies under a shared header. -/
def exDirListing : List (String × List String) :=
  [("1.csv", ["h", "b"]), ("0.csv", ["h", "a"])]

/-! ## `reduce_categories` (lines 200–230) -/

/-- The sentinel every non-kept category value is rewritten to (line 228). -/
def other_category : Value := .str "other category"

/-- The revenue-like target column (line 217). -/
def target_name : String := "transactionRevenue"

/-- `df.groupby(col, as_index=False)[target].sum()`: per-category sums of
the target, keys sorted ascending, NaN skipped inside each sum. -/
def groupSum (df : Frame) (col vcol : String) : List (Value × ℚ) :=
  (df.groupKeys col).map (fun k =>
    (k, ((filterP (fun r => Row.get r col = k) df.rows).map
          (fun r => (Row.get r vcol).toQ)).sum))

/-- `np.cumsum`: running partial sums. -/
def cumsum : List ℚ → List ℚ
  | [] => []
  | q :: qs => q :: (cumsum qs).map (fun x => q + x)

/-- One iteration of the `for col in ohe_reduce` loop (lines 218–228).
If the column has more than `max_cat` distinct values: sum the target per
category, sort descending by that sum (`sort_values`), compute the
cumulative fraction `per`, keep the categories with `per <= selec_top_per`;
if fewer than `max_cat` survive, take `top.loc[0:min(max_cat, len(top))]`
instead — a label slice, inclusive of both ends, hence `take (min + 1)`.
Every row whose value is not kept is overwritten with `other category`. -/
def reduce_categories_step (selec_top_per : ℚ) (max_cat : ℕ) (df : Frame) (col : String) : Frame :=
  if max_cat < (uniqueVals (df.colValues col)).length then
    let top := (groupSum df col target_name).insertionSort (fun a b => b.2 ≤ a.2)
    let total := (top.map (fun p => p.2)).sum
    let per := cumsum (top.map (fun p => p.2))
    let top_names :=
      (filterP (fun p => p.2 / total ≤ selec_top_per) (top.zip per)).map (fun p => p.1.1)
    let top_names :=
      if top_names.length < max_cat then
        ((top.take (min max_cat top.length + 1)).map (fun p => p.1))
      else top_names
    ⟨df.cols, df.rows.map (fun r =>
      if Row.get r col ∈ top_names then r else Row.setVal r col other_category)⟩
  else df

/-- `reduce_categories(df, ohe_reduce, selec_top_per, max_cat)`. -/
def reduce_categories (df : Frame) (ohe_reduce : List String)
    (selec_top_per : ℚ) (max_cat : ℕ) : Frame :=
  ohe_reduce.foldl (reduce_categories_step selec_top_per max_cat) df

/-- The worked example of the claim: categories A/B/C/D with target sums
100/80/5/5, one session row each. -/
def exC2 : Frame :=
  ⟨["cat", "transactionRevenue"],
   [[("cat", .str "A"), ("transactionRevenue", .num 100)],
    [("cat", .str "B"), ("transactionRevenue", .num 80)],
    [("cat", .str "C"), ("transactionRevenue", .num 5)],
    [("cat", .str "D"), ("transactionRevenue", .num 5)]]⟩

/-! ## `one_hot_encode_categoricals` (lines 254–284) -/

/-- Indicator column names: `pd.get_dummies(..., prefix='category_')` uses
the prefix, the default separator `_`, then the stringified value. -/
def dummyName (v : Value) : String := "category_" ++ "_" ++ Value.asStr v

/-- `pd.get_dummies(data[col], prefix='category_')`: one indicator column
per distinct non-null value of the column, in sorted order; a row scores 1
in the column of its own value and 0 elsewhere (all zeroes on NaN). -/
def get_dummies (data : Frame) (col : String) : Frame :=
  let cats := sortVals (uniqueVals (filterP (fun v => ¬ v = Value.null) (data.colValues col)))
  ⟨cats.map dummyName,
   data.rows.map (fun r => cats.map (fun v =>
     (dummyName v, Value.num (if Row.get r col = v then 1 else 0))))⟩

/-- `pd.concat([a, b], sort=False)` with the default `axis=0`: the rows of
`b` are stacked BELOW the rows of `a`; the column list is the union in
order of appearance; entries absent from a row read as NaN via `Row.get`. -/
def concatRows (a b : Frame) : Frame :=
  ⟨a.cols ++ filterP (fun c => ¬ c ∈ a.cols) b.cols, a.rows ++ b.rows⟩

/-- `del data[col]`. -/
def Frame.delCol (fr : Frame) (c : String) : Frame :=
  ⟨filterP (fun c0 => ¬ c0 = c) fr.cols,
   fr.rows.map (fun r => filterP (fun p => ¬ p.1 = c) r)⟩

/-- The hard-coded OHE list (line 275). -/
def OHE_columns : List String := ["operatingSystem", "country", "browser", "weekday"]

/-- `one_hot_encode_categoricals(data)` (lines 254–284). For each column:
the numeric-dtype branch converts to `category` via `astype`, which keeps
the stored values (so it is the identity on the data modelled here); then
`data = pd.concat([data, pd.get_dummies(data[col], prefix='category_')],
sort=False)` — row-wise stacking, since `axis=1` is not passed — and
`del data[col]`. -/
def one_hot_encode_categoricals (data : Frame) : Frame :=
  OHE_columns.foldl (fun data col => (concatRows data (get_dummies data col)).delCol col) data

/-- Per-row sum of a set of indicator columns (NaN reads as 0, as in a
skipna pandas sum). -/
def rowIndicatorSum (r : Row) (cs : List String) : ℚ :=
  (cs.map (fun c => (Row.get r c).toQ)).sum

/-- A one-row session frame with all four OHE columns present. -/
def exC1 : Frame :=
  ⟨["fullVisitorId", "operatingSystem", "country", "browser", "weekday"],
   [[("fullVisitorId", .str "42"), ("operatingSystem", .str "Win"),
     ("country", .str "US"), ("browser", .str "Ch"), ("weekday", .str "Mon")]]⟩

/-! ## `aggregate` (lines 75–113) -/

/-- The dynamic per-month metrics of `aggregate` (line 97). -/
def dynamic_columns : List String := ["transactionRevenue", "visits", "transactions", "pageviews"]

/-- One cell of `pd.pivot_table(df, index='fullVisitorId',
columns='date_temp', values=dynamic_columns)`: the default aggfunc is the
NaN-skipping mean; a group that is empty, has no non-null value, or was
dropped by `dropna` reads as NaN after unstacking. -/
def pivotCell (df : Frame) (v b : Value) (m : String) : Value :=
  let vals := filterP (fun x => ¬ x = Value.null)
    ((filterP (fun r => Row.get r "fullVisitorId" = v ∧ Row.get r "date_temp" = b) df.rows).map
      (fun r => Row.get r m))
  if vals = [] then .null else .num ((vals.map Value.toQ).sum / vals.length)

/-- `pivot_table`'s default `dropna=True` runs `agged.dropna(how='all')`
before unstacking: an aggregated (visitor, bucket) row survives when not
all four metric means are NaN. A visitor therefore keeps a row in the
pivot exactly when one of its sessions lies in a real group (both group
keys non-null — `groupby` drops NaN keys) and carries at least one
non-null dynamic metric. -/
abbrev pivotKeeps (df : Frame) (v : Value) : Prop :=
  ∃ r ∈ df.rows, Row.get r "fullVisitorId" = v ∧ ¬ Row.get r "date_temp" = Value.null ∧
    ∃ m ∈ dynamic_columns, ¬ Row.get r m = Value.null

/-- The closing `table.dropna(how='all', axis=1)` of `pivot_table` keeps a
(metric, bucket) column exactly when some real group in that bucket holds
a non-null value of the metric (such a group's visitor also survives the
row-wise `dropna`, so the cell is in the final table). -/
abbrev pivotColKeeps (df : Frame) (m : String) (b : Value) : Prop :=
  ∃ r ∈ df.rows, ¬ Row.get r "fullVisitorId" = Value.null ∧ Row.get r "date_temp" = b ∧
    ¬ Row.get r m = Value.null

/-- `table.sort_index(axis=1)`: lexicographic order on the
(metric, bucket) column multi-index tuples. -/
def colPairLeB (p q : String × Value) : Bool :=
  if p.1 = q.1 then Value.leB p.2 q.2 else natListLeB (strKey p.1) (strKey q.1)

/-- The long-to-wide pivot of `aggregate` (lines 98–102):
`pd.pivot_table(df, index='fullVisitorId', columns='date_temp',
values=dynamic_columns)` with its defaults — rows with a NaN group key are
dropped, aggregated rows NaN in all four metrics are dropped
(`dropna=True`), the unstacked columns are sorted (`sort_index(axis=1)`)
and all-NaN columns are dropped — then the multi-index is collapsed to
`<metric>_<bucket>` (line 101) and the index reset into a column. -/
def pivot_wide (df : Frame) : Frame :=
  let visitors := filterP (pivotKeeps df) (df.groupKeys "fullVisitorId")
  let buckets := df.groupKeys "date_temp"
  let colPairs := (dynamic_columns.flatMap (fun m =>
    (filterP (pivotColKeeps df m) buckets).map (fun b => (m, b)))).insertionSort
      (fun p q => colPairLeB p q = true)
  ⟨"fullVisitorId" :: colPairs.map (fun p => p.1 ++ "_" ++ Value.asStr p.2),
   visitors.map (fun v =>
     ("fullVisitorId", v) :: colPairs.map (fun p =>
       (p.1 ++ "_" ++ Value.asStr p.2, pivotCell df v p.2 p.1)))⟩

/-- pandas addition as used by `groupby(...).sum()` on object columns:
numbers add, strings concatenate, NaN is skipped. -/
def Value.add : Value → Value → Value
  | .num a, .num b => .num (a + b)
  | .str a, .str b => .str (a ++ b)
  | .null, v => v
  | v, .null => v
  | _, _ => .null

/-- NaN-skipping sum of a column slice of a group. -/
def valSum (vs : List Value) : Value := vs.foldl Value.add .null

/-- `static.groupby("fullVisitorId", as_index=False)[cs].sum()`: one row
per (sorted, non-null) key; the key column comes first, the remaining
selected columns are summed per group. -/
def groupbySum (df : Frame) (key : String) (cs : List String) : Frame :=
  let ks := df.groupKeys key
  ⟨key :: filterP (fun c => ¬ c = key) cs,
   ks.map (fun v => (key, v) :: (filterP (fun c => ¬ c = key) cs).map (fun c =>
     (c, valSum ((filterP (fun r => Row.get r key = v) df.rows).map (fun r => Row.get r c)))))⟩

/-- Lowercased character code, the `key=lambda y: y.lower()` of line 113. -/
def lowerNat (n : ℕ) : ℕ := if 65 ≤ n ∧ n ≤ 90 then n + 32 else n

/-- Case-insensitive sort key of a column name. -/
def natKey (s : String) : List ℕ := s.data.map (fun ch => lowerNat ch.toNat)

/-- `natsorted(cols, key=lambda y: y.lower())` modelled as a stable
case-insensitive lexicographic sort of the column names (the digit-chunk
refinement of natsort is irrelevant to the claims, which only concern the
row content and the column set, both invariant under reordering). -/
def natsorted (cs : List String) : List String :=
  cs.insertionSort (fun a b => natListLeB (natKey a) (natKey b) = true)

/-- `l.merge(r, on=k, how="inner")` for frames whose only shared column is
the key `k` (the situation at every call site modelled here, so no suffix
disambiguation arises): every left row is paired with every right row
carrying the same key; the right key column is not repeated. -/
def innerMergeOn (k : String) (l r : Frame) : Frame :=
  ⟨l.cols ++ filterP (fun c => ¬ c = k) r.cols,
   l.rows.flatMap (fun lr =>
     (filterP (fun rr => Row.get rr k = Row.get lr k) r.rows).map
       (fun rr => lr ++ filterP (fun p => ¬ p.1 = k) rr))⟩

/-- `aggregate(df)` (lines 75–113): wide pivot of the dynamic columns,
re-grouped sum of the static columns, inner merge of the two on the
visitor id, and a case-insensitive natural sort of the final columns.
`list(set(...))` has arbitrary order in Python; the static columns are
modelled in original column order, which only affects column order before
the final sort. -/
def aggregate (df : Frame) : Frame :=
  let wide := pivot_wide df
  let static_columns := filterP
    (fun c => ¬ c ∈ dynamic_columns ∧ ¬ c = "date" ∧ ¬ c = "date_temp") df.cols
  let static := df.select static_columns
  let static_grouped := groupbySum static "fullVisitorId" static_columns
  let merged := innerMergeOn "fullVisitorId" static_grouped wide
  merged.select (natsorted merged.cols)

/-! ## `split_data` (lines 148–197): the alignment tail

The claim concerns lines 185–197, which operate on the already aggregated
`x_train`, `y_train`, `x_test` frames: intersect the train/test column
names, inner-merge `x_train` with `y_train` on the visitor id to realign
them, and slice all outputs back to their column lists. -/

/-- Lines 185–197 of `split_data`. -/
def split_data_tail (x_train y_train x_test : Frame) : Frame × Frame × Frame :=
  let names := filterP (fun c => c ∈ x_test.cols) x_train.cols
  let names_x := x_train.cols
  let names_y := y_train.cols
  let merged := innerMergeOn "fullVisitorId" x_train y_train
  let x_train := merged.select names_x
  let y_train := merged.select names_y
  (x_train.select names, y_train, x_test.select names)

/-- A two-visitor x_train, a one-visitor y_train and an x_test whose column
set overlaps x_train in `fullVisitorId` and `a` only. -/
def exXTrain : Frame :=
  ⟨["fullVisitorId", "a", "b"],
   [[("fullVisitorId", .str "1"), ("a", .num 10), ("b", .num 11)],
    [("fullVisitorId", .str "2"), ("a", .num 20), ("b", .num 21)]]⟩

def exYTrain : Frame :=
  ⟨["fullVisitorId", "target"],
   [[("fullVisitorId", .str "2"), ("target", .num 7)]]⟩

def exXTest : Frame :=
  ⟨["fullVisitorId", "a", "c"],
   [[("fullVisitorId", .str "3"), ("a", .num 30), ("c", .num 31)]]⟩

/-! ## `add_mean_time_between_visits` (lines 413–431) -/

/-- Lines 426–431: `safe = df["totalVisits_mean"] > 1` (False on NaN or
non-numbers, as in pandas), `intervisit_time = np.zeros(len(df))`, a masked
assignment of `days_first_to_last_visit / (totalVisits_mean - 1)` on the
safe rows, and a new column holding the result. -/
def add_mean_time_between_visits (df : Frame) : Frame :=
  let safe := df.rows.map (fun r =>
    match Row.get r "totalVisits_mean" with
    | .num q => decide (1 < q)
    | _ => false)
  let intervisit_time : List ℚ := df.rows.map (fun _ => 0)
  let intervisit := List.zipWith
    (fun r sz => if sz.1 then
        (Row.get r "days_first_to_last_visit").toQ / ((Row.get r "totalVisits_mean").toQ - 1)
      else sz.2)
    df.rows (safe.zip intervisit_time)
  ⟨df.cols ++ ["mean_intervisit_time"],
   (df.rows.zip intervisit).map (fun p => p.1 ++ [("mean_intervisit_time", Value.num p.2)])⟩

/-- The two visitors of the claim: `totalVisits_mean=1` with an arbitrary
visit-span, and `totalVisits_mean=3` over 30 days. -/
def exC7 : Frame :=
  ⟨["totalVisits_mean", "days_first_to_last_visit"],
   [[("totalVisits_mean", .num 1), ("days_first_to_last_visit", .num 1234)],
    [("totalVisits_mean", .num 3), ("days_first_to_last_visit", .num 30)]]⟩

/-! ## `aggregate_data_per_customer` (lines 434–511) and its helpers

The function's first statement calls `one_hot_encode_categoricals(data, OHE)`
with two positional arguments, although the callee (line 254) declares a
single parameter `data`; Python raises `TypeError` at the call site, before
any of the body's work is done. The call protocol is made explicit through
an arity check; the remainder of the body is embedded so the sequence of
statements is visible, but it is reachable only if the arity check passes. -/

/-- A Python runtime error. -/
inductive PyErr where
  | typeError (msg : String)
deriving DecidableEq

/-- The parameter count of `def one_hot_encode_categoricals(data)` (line 254). -/
def one_hot_encode_categoricals_paramCount : ℕ := 1

/-- A call to `one_hot_encode_categoricals` passing `nPositionalArgs`
positional arguments: Python checks the arity against the definition before
running the body. -/
def call_one_hot_encode_categoricals (data : Frame) (nPositionalArgs : ℕ) :
    Except PyErr Frame :=
  if nPositionalArgs = one_hot_encode_categoricals_paramCount then
    .ok (one_hot_encode_categoricals data)
  else
    .error (.typeError
      "one_hot_encode_categoricals() takes 1 positional argument but 2 were given")

/-- The static categorical columns of line 454. -/
def OHE_static_columns : List String :=
  ["channelGrouping", "browser", "deviceCategory", "operatingSystem", "city",
   "continent", "country", "metro", "region", "subContinent", "adContent",
   "adwordsClickInfo.adNetworkType", "adwordsClickInfo.page", "adwordsClickInfo.slot",
   "campaign", "medium", "source_cat", "weekday", "visitHour"]

/-- The boolean flag columns of line 458. -/
def boolean_columns : List String :=
  ["isMobile", "adwordsClickInfo.isVideoAd", "isTrueDirect",
   "keyword.isGoogle", "keyword.isYouTube"]

/-- The high-cardinality categorical columns of line 459. -/
def cat_nunique_columns : List String := ["networkDomain"]

/-- The numeric columns summarized by their mean (line 460). -/
def num_mean_columns : List String :=
  ["totalVisits", "keyword.mistakes_Google", "keyword.mistakes_YouTube"]

/-- The monthly-count metrics of line 463. -/
def monthly_count_columns : List String := ["bounces", "newVisits"]

/-- The monthly-mean metrics of line 464. -/
def monthly_mean_columns : List String := ["hits", "pageviews", "target"]

/-- The monthly-sum metrics of line 465. -/
def monthly_sum_columns : List String := ["hits", "pageviews", "target"]

/-- The group of rows of one visitor, as the NaN-skipping numeric values of
one column. -/
def groupValsQ (data : Frame) (v : Value) (c : String) : List ℚ :=
  (filterP (fun x => ¬ x = Value.null)
    ((filterP (fun r => Row.get r "fullVisitorId" = v) data.rows).map
      (fun r => Row.get r c))).map Value.toQ

/-- The named aggregation functions handed to pandas (`'mean'`, `'count'`,
`'sum'`). -/
def aggApply : String → List ℚ → ℚ
  | "mean", vs => vs.sum / vs.length
  | "count", vs => vs.length
  | "sum", vs => vs.sum
  | _, _ => 0

/-- `summarize_numerical_data(data, cols, aggregation)` (lines 287–317):
`data.groupby('fullVisitorId')[cols].agg(aggregation)` with the
multi-index collapsed to `<col>_<agg>`. (The `fillna(0, inplace=True)` on
a column slice at lines 314–315 acts on a copy and has no effect.) -/
def summarize_numerical_data (data : Frame) (cs : List String) (aggregation : List String) : Frame :=
  let ks := data.groupKeys "fullVisitorId"
  ⟨"fullVisitorId" :: cs.flatMap (fun c => aggregation.map (fun a => c ++ "_" ++ a)),
   ks.map (fun v => ("fullVisitorId", v) :: cs.flatMap (fun c => aggregation.map (fun a =>
     (c ++ "_" ++ a, Value.num (aggApply a (groupValsQ data v c))))))⟩

/-- `data[boolean_cols] *= 1; data[boolean_cols].fillna(0)`: booleans and
1/NaN encodings collapse to 1 and 0. -/
def boolToQ : Value → ℚ
  | .num q => q
  | _ => 0

/-- `get_means_of_booleans(data, boolean_cols)` (lines 320–342): normalize
the boolean columns to 0/1, then the per-visitor mean, suffixed `_avg`. -/
def get_means_of_booleans (data : Frame) (bcols : List String) : Frame :=
  let ks := data.groupKeys "fullVisitorId"
  ⟨"fullVisitorId" :: bcols.map (fun c => c ++ "_avg"),
   ks.map (fun v => ("fullVisitorId", v) :: bcols.map (fun c =>
     let vs := (filterP (fun r => Row.get r "fullVisitorId" = v) data.rows).map
       (fun r => boolToQ (Row.get r c))
     (c ++ "_avg", Value.num (vs.sum / vs.length))))⟩

/-- `np.timedelta64(1, 'M')` in days: 365.2425 / 12. -/
def np_month_days : ℚ := 48699 / 1600

/-- `nrmonths(start, end)` (lines 345–356): the floor of the timestamp
difference divided by one mean month (dates are day numbers here). -/
def nrmonths (start finish : ℚ) : ℤ := Rat.floor ((finish - start) / np_month_days)

/-- `data['nr_months_ago'] = data.apply(lambda row: nrmonths(row['date'],
startdate_y), axis=1)` (line 490). -/
def add_nr_months_ago (data : Frame) (startdate_y : ℚ) : Frame :=
  ⟨data.cols ++ ["nr_months_ago"],
   data.rows.map (fun r =>
     r ++ [("nr_months_ago", Value.num ((nrmonths (Row.get r "date").toQ startdate_y : ℤ) : ℚ))])⟩

/-- `get_dynamic(data, cols, method, timewindow='monthly')` (lines
359–383): a monthly pivot on `nr_months_ago` with `fill_value=0`, columns
renamed `<col>_<month>_<method>`. (For any other timewindow the original
only prints a message; that branch is inert here.) -/
def get_dynamic (data : Frame) (cs : List String) (method : String) (timewindow : String) : Frame :=
  if timewindow = "monthly" then
    let ks := data.groupKeys "fullVisitorId"
    let months := data.groupKeys "nr_months_ago"
    ⟨"fullVisitorId" :: cs.flatMap (fun c => months.map (fun m =>
        c ++ "_" ++ Value.asStr m ++ "_" ++ method)),
     ks.map (fun v => ("fullVisitorId", v) :: cs.flatMap (fun c => months.map (fun m =>
       let grp := filterP
         (fun r => Row.get r "fullVisitorId" = v ∧ Row.get r "nr_months_ago" = m) data.rows
       let vs := (filterP (fun x => ¬ x = Value.null) (grp.map (fun r => Row.get r c))).map Value.toQ
       (c ++ "_" ++ Value.asStr m ++ "_" ++ method,
        Value.num (if vs = [] then 0 else aggApply method vs)))))⟩
  else data

/-- `add_datetime_features(data)` (lines 386–410): per-visitor
`max(date) - min(date)` in days. -/
def add_datetime_features (data : Frame) : Frame :=
  let ks := data.groupKeys "fullVisitorId"
  ⟨["fullVisitorId", "days_first_to_last_visit"],
   ks.map (fun v =>
     let ds := (filterP (fun r => Row.get r "fullVisitorId" = v) data.rows).map
       (fun r => (Row.get r "date").toQ)
     [("fullVisitorId", v),
      ("days_first_to_last_visit",
       Value.num ((Rat.floor (ds.foldl max 0 - ds.foldl min 0) : ℤ) : ℚ))])⟩

/-- `data_categoricals.loc[:, ~data_categoricals.columns.str.contains("NaN")]`
(lines 472–473). -/
def drop_nan_columns (fr : Frame) : Frame :=
  fr.select (filterP (fun c => (c.splitOn "NaN").length = 1) fr.cols)

/-- `data.groupby(['fullVisitorId'])[cat_nunique].nunique().add_suffix('_#diff')`
(lines 477–478): distinct non-null values per visitor. -/
def groupby_nunique (data : Frame) (cs : List String) : Frame :=
  let ks := data.groupKeys "fullVisitorId"
  ⟨"fullVisitorId" :: cs.map (fun c => c ++ "_#diff"),
   ks.map (fun v => ("fullVisitorId", v) :: cs.map (fun c =>
     (c ++ "_#diff",
      Value.num (uniqueVals (filterP (fun x => ¬ x = Value.null)
        ((filterP (fun r => Row.get r "fullVisitorId" = v) data.rows).map
          (fun r => Row.get r c)))).length)))⟩

/-- `pd.concat([...], axis=1)` over visitor-keyed frames (line 504): outer
alignment on the sorted union of the visitor indexes; a frame missing a
visitor contributes NaN in its columns. -/
def concat_axis1 (frames : List Frame) : Frame :=
  let ks := sortVals (uniqueVals (frames.flatMap (fun fr => fr.colValues "fullVisitorId")))
  ⟨"fullVisitorId" :: frames.flatMap (fun fr => filterP (fun c => ¬ c = "fullVisitorId") fr.cols),
   ks.map (fun v => ("fullVisitorId", v) :: frames.flatMap (fun fr =>
     match filterP (fun r => Row.get r "fullVisitorId" = v) fr.rows with
     | r :: _ => filterP (fun p => ¬ p.1 = "fullVisitorId") r
     | [] => (filterP (fun c => ¬ c = "fullVisitorId") fr.cols).map (fun c => (c, Value.null))))⟩

/-- `aggregate_data_per_customer(data, startdate_y, startdate_x)` (lines
434–511). The first statement (line 469) is
`one_hot_encode_categoricals(data, OHE)` — two positional arguments — and
line 496 repeats the pattern with `(data, ['nr_months_ago'])`. Start dates
are day numbers (the original parses `%Y-%m-%d` strings; `startdate_x` is
parsed and then never used). -/
def aggregate_data_per_customer (data : Frame) (startdate_y startdate_x : ℚ) :
    Except PyErr Frame := do
  let data_categoricals ← call_one_hot_encode_categoricals data 2
  let data_categoricals := drop_nan_columns data_categoricals
  let data_diff := groupby_nunique data cat_nunique_columns
  let data_bools := get_means_of_booleans data boolean_columns
  let data_numericals := summarize_numerical_data data num_mean_columns ["mean"]
  let data1 := add_nr_months_ago data startdate_y
  let data_dynamic_mean := get_dynamic data1 monthly_mean_columns "mean" "monthly"
  let data_dynamic_count := get_dynamic data1 monthly_count_columns "count" "monthly"
  let data_dynamic_sum := get_dynamic data1 monthly_sum_columns "sum" "monthly"
  let data_dynamic_visits ← call_one_hot_encode_categoricals data1 2
  let data_dates := add_datetime_features data1
  let df := concat_axis1 [data_categoricals, data_diff, data_bools, data_numericals,
    data_dynamic_mean, data_dynamic_count, data_dynamic_sum, data_dynamic_visits, data_dates]
  return add_mean_time_between_visits df

/-! ## Auxiliary predicates and example frames for the theorems -/

/-- The frame effect of `reduce_categories` on one row: the column keys are
unchanged, every column outside `ohe` is value-for-value unchanged, and a
changed value can only be in a listed column and only become the sentinel. -/
def RowRel (ohe : List String) (r0 r1 : Row) : Prop :=
  r1.map Prod.fst = r0.map Prod.fst ∧
  (∀ c, ¬ c ∈ ohe → Row.get r1 c = Row.get r0 c) ∧
  (∀ c, ¬ Row.get r1 c = Row.get r0 c → c ∈ ohe ∧ Row.get r1 c = other_category)

/-- A two-visitor monthly customer frame for `aggregate`. -/
def exC6 : Frame :=
  ⟨["fullVisitorId", "date_temp", "transactionRevenue", "visits",
    "transactions", "pageviews", "country"],
   [[("fullVisitorId", .str "1"), ("date_temp", .str "8_2016"), ("transactionRevenue", .num 3),
     ("visits", .num 1), ("transactions", .num 1), ("pageviews", .num 4), ("country", .str "US")],
    [("fullVisitorId", .str "2"), ("date_temp", .str "9_2016"), ("transactionRevenue", .num 0),
     ("visits", .num 2), ("transactions", .num 0), ("pageviews", .num 5), ("country", .str "DE")]]⟩

/-- A flattened chunk missing the target column `pageviews`. -/
def exC8 : Frame :=
  ⟨["date", "fullVisitorId", "operatingSystem", "country", "browser",
    "transactions", "visits", "transactionRevenue", "visitStartTime"],
   [[("date", .num 17045), ("fullVisitorId", .str "007"), ("operatingSystem", .str "Win"),
     ("country", .str "US"), ("browser", .str "Ch"), ("transactions", .num 0),
     ("visits", .num 1), ("transactionRevenue", .num 0), ("visitStartTime", .num 1)]]⟩

/-- A chunk holding every target column, used to exercise the normal path. -/
def exGoodChunk : Frame :=
  ⟨reduce_df_target_cols,
   [[("date", .num 17045), ("fullVisitorId", .str "007"), ("operatingSystem", .str "Win"),
     ("country", .str "US"), ("browser", .str "Ch"), ("pageviews", .num 2),
     ("transactions", .num 0), ("visits", .num 1), ("transactionRevenue", .num 0),
     ("visitStartTime", .num 1)]]⟩

/-! ## Basic lemmas about rows, filters and sorts -/

theorem mem_filterP {P : α → Prop} [DecidablePred P] {a : α} :
    ∀ {l : List α}, a ∈ filterP P l ↔ a ∈ l ∧ P a
  | [] => by simp [filterP]
  | b :: l => by
    by_cases hb : P b
    · simp only [filterP, if_pos hb, List.mem_cons, mem_filterP (l := l)]
      constructor
      · rintro (rfl | ⟨h1, h2⟩)
        · exact ⟨Or.inl rfl, hb⟩
        · exact ⟨Or.inr h1, h2⟩
      · rintro ⟨rfl | h1, h2⟩
        · exact Or.inl rfl
        · exact Or.inr ⟨h1, h2⟩
    · simp only [filterP, if_neg hb, List.mem_cons, mem_filterP (l := l)]
      constructor
      · rintro ⟨h1, h2⟩
        exact ⟨Or.inr h1, h2⟩
      · rintro ⟨rfl | h1, h2⟩
        · exact absurd h2 hb
        · exact ⟨h1, h2⟩

theorem Row.get_append_left {r : Row} {c : String} (h : c ∈ r.map Prod.fst) (x : Row) :
    Row.get (r ++ x) c = Row.get r c := by
  induction r with
  | nil => simp at h
  | cons p r ih =>
    by_cases hp : p.1 = c
    · simp [Row.get, hp]
    · simp only [List.map_cons, List.mem_cons] at h
      rcases h with h | h
      · exact absurd h.symm hp
      · simp [Row.get, hp, ih h]

theorem Row.get_append_right {r : Row} {c : String} (h : ¬ c ∈ r.map Prod.fst) (x : Row) :
    Row.get (r ++ x) c = Row.get x c := by
  induction r with
  | nil => simp
  | cons p r ih =>
    simp only [List.map_cons, List.mem_cons, not_or] at h
    have hp : ¬ p.1 = c := fun hc => h.1 hc.symm
    simp [Row.get, hp, ih h.2]

theorem Row.get_build {cs : List String} {c : String} (h : c ∈ cs) (f : String → Value) :
    Row.get (cs.map (fun c0 => (c0, f c0))) c = f c := by
  induction cs with
  | nil => simp at h
  | cons c0 cs ih =>
    by_cases hc : c0 = c
    · subst hc; simp [Row.get]
    · rcases List.mem_cons.mp h with h | h
      · exact absurd h.symm hc
      · simp [Row.get, hc, ih h]

theorem Frame.select_rows_get (fr : Frame) {cs : List String} {c : String} (h : c ∈ cs) :
    (fr.select cs).rows.map (fun r => Row.get r c) = fr.rows.map (fun r => Row.get r c) := by
  simp only [Frame.select, List.map_map]
  exact List.map_congr_left (fun r _ => Row.get_build h (fun c0 => Row.get r c0))

theorem sortVals_perm (vs : List Value) : (sortVals vs).Perm vs :=
  List.perm_insertionSort _ vs

theorem dedupKeep_nodup_aux :
    ∀ (vs seen : List Value),
      (dedupKeep seen vs).Nodup ∧ ∀ v ∈ dedupKeep seen vs, ¬ v ∈ seen
  | [], _ => by simp [dedupKeep]
  | v :: vs, seen => by
    by_cases hv : v ∈ seen
    · simpa [dedupKeep, if_pos hv] using dedupKeep_nodup_aux vs seen
    · have ih := dedupKeep_nodup_aux vs (v :: seen)
      simp only [dedupKeep, if_neg hv, List.nodup_cons]
      refine ⟨⟨fun hmem => ?_, ih.1⟩, ?_⟩
      · exact ih.2 v hmem (List.mem_cons_self v seen)
      · intro w hw
        rcases List.mem_cons.mp hw with rfl | hw
        · exact hv
        · exact fun hws => ih.2 w hw (List.mem_cons_of_mem v hws)

theorem uniqueVals_nodup (vs : List Value) : (uniqueVals vs).Nodup :=
  (dedupKeep_nodup_aux vs []).1

theorem Frame.groupKeys_nodup (fr : Frame) (c : String) : (fr.groupKeys c).Nodup :=
  ((sortVals_perm _).nodup_iff).mpr (uniqueVals_nodup _)

theorem filterP_eq_nil_of_not_mem {f : α → β} {v : β} [DecidableEq β] :
    ∀ {l : List α}, ¬ v ∈ l.map f → filterP (fun a => f a = v) l = []
  | [], _ => rfl
  | a :: l, h => by
    simp only [List.map_cons, List.mem_cons, not_or] at h
    simp only [filterP, if_neg (fun hv : f a = v => h.1 hv.symm)]
    exact filterP_eq_nil_of_not_mem h.2

theorem filterP_length_one {f : α → β} {v : β} [DecidableEq β] :
    ∀ {l : List α}, (l.map f).Nodup → v ∈ l.map f →
      (filterP (fun a => f a = v) l).length = 1
  | [], _, hv => by simp at hv
  | a :: l, hN, hv => by
    simp only [List.map_cons, List.nodup_cons] at hN
    by_cases ha : f a = v
    · subst ha
      simp [filterP, filterP_eq_nil_of_not_mem hN.1]
    · rcases List.mem_cons.mp hv with hv | hv
      · exact absurd hv.symm ha
      · simp only [filterP, if_neg ha]
        exact filterP_length_one hN.2 hv

/-! ## C4: the concatenation order of `reduce_df` -/

theorem enumFrom_flatMap_drop (rest : List (String × List String)) :
    ∀ i, ¬ i = 0 →
      (List.enumFrom i rest).flatMap (fun p => if p.1 = 0 then p.2.2 else p.2.2.drop 1)
        = rest.flatMap (fun g => g.2.drop 1) := by
  induction rest with
  | nil => intro i _; rfl
  | cons g rest ih =>
    intro i hi
    simp only [List.enumFrom, List.flatMap_cons, if_neg hi]
    rw [ih (i + 1) (by omega)]

/-- C4 (counterexample): `reduce_df` concatenates the temporary files in
the order `glob.glob` lists them, which need not be filename-sorted: on the
listing `[1.csv, 0.csv]` the produced output differs from the output of
the filename-sorted concatenation, so the claimed sorted order does not
hold on every execution. -/
theorem reduce_df_concat_unsorted_listing :
    reduce_df_concat exDirListing = ["h", "b", "a"] ∧
    reduce_df_concat (sortFilesByName exDirListing) = ["h", "a", "b"] ∧
    ¬ reduce_df_concat exDirListing = reduce_df_concat (sortFilesByName exDirListing) := by
  refine ⟨?_, ?_, ?_⟩ <;> decide

/-- C4 (amended): the temporary files are concatenated in the order of the
directory listing returned by `glob.glob` (not sorted), and the header line
is kept from only the first file in that order: the output is the first
file in full followed by every later file with its first line dropped. -/
theorem reduce_df_concat_keeps_first_header (f : String × List String)
    (rest : List (String × List String)) :
    reduce_df_concat (f :: rest) = f.2 ++ rest.flatMap (fun g => g.2.drop 1) := by
  simp only [reduce_df_concat, List.enum, List.enumFrom, List.flatMap_cons, if_pos rfl, if_true]
  rw [enumFrom_flatMap_drop rest 1 (by omega)]

/-! ## C5: lifetime of the temporary directory -/

/-- C5 (counterexample): on a run whose first chunk has malformed JSON, the
parse error propagates out of `reduce_df` while `../data/temp` still
exists — the temporary directory is not removed on this path, contradicting
the claim that it is removed on every path. -/
theorem reduce_df_error_leaves_temp_dir :
    reduce_df_run [none] = (Except.error "JSONDecodeError", true) := rfl

/-- C5 (amended): the temporary directory is removed if and only if
`reduce_df` completes normally; when an exception propagates, the directory
is left behind. -/
theorem reduce_df_temp_dir_iff_ok (chunks : List (Option Frame)) :
    (reduce_df_run chunks).2 = false ↔ ∃ outs, (reduce_df_run chunks).1 = Except.ok outs := by
  unfold reduce_df_run
  cases reduce_df_chunks 0 chunks <;> simp

theorem reduce_df_temp_dir_iff_ok_witness :
    (reduce_df_run [some exGoodChunk]).2 = false :=
  (reduce_df_temp_dir_iff_ok [some exGoodChunk]).mpr
    ⟨[processChunk 0 exGoodChunk], rfl⟩

/-! ## C9: the arity mismatch in `aggregate_data_per_customer` -/

/-- C9: every call of `aggregate_data_per_customer` raises `TypeError`
before producing any output: its first statement passes two positional
arguments to `one_hot_encode_categoricals`, whose definition takes exactly
one parameter, so no call returns normally. -/
theorem aggregate_data_per_customer_type_error (data : Frame) (sy sx : ℚ) :
    aggregate_data_per_customer data sy sx
      = Except.error (PyErr.typeError
          "one_hot_encode_categoricals() takes 1 positional argument but 2 were given") := rfl

/-! ## C8: missing-column recovery in `reduce_df` -/

theorem foldl_addZeroCol_rows (ms : List String) :
    ∀ fr : Frame, (ms.foldl Frame.addZeroCol fr).rows
      = fr.rows.map (fun r => r ++ ms.map (fun m => (m, Value.num 0))) := by
  induction ms with
  | nil => intro fr; simp
  | cons m ms ih =>
    intro fr
    rw [List.foldl_cons, ih (fr.addZeroCol m)]
    simp only [Frame.addZeroCol, List.map_map, List.map_cons]
    refine List.map_congr_left (fun r _ => ?_)
    simp [Function.comp]

theorem reduce_df_chunks_map_some (chunks : List Frame) :
    ∀ i, reduce_df_chunks i (chunks.map some)
      = Except.ok ((List.enumFrom i chunks).map (fun p => processChunk p.1 p.2)) := by
  induction chunks with
  | nil => intro i; rfl
  | cons fr chunks ih =>
    intro i
    simp only [List.map_cons, reduce_df_chunks, ih (i + 1), List.enumFrom]

/-- C8: for every chunk missing one of the ten target columns, processing
recovers: the chunk is selected down to exactly the ten target columns with
every missing column filled with zeroes, the missing column and the chunk
number are logged, and a run whose chunks all parse processes every chunk
and completes normally. -/
theorem reduce_df_fills_missing_columns (i : ℕ) (fr : Frame) (c : String)
    (hwf : ∀ r ∈ fr.rows, r.map Prod.fst = fr.cols)
    (hc : c ∈ reduce_df_target_cols) (hmiss : ¬ c ∈ fr.cols) (chunks : List Frame) :
    (processChunk i fr).1.cols = reduce_df_target_cols ∧
    (∀ r ∈ (processChunk i fr).1.rows, Row.get r c = Value.num 0) ∧
    missingMsg c i ∈ (processChunk i fr).2 ∧
    reduce_df_run (chunks.map some)
      = (Except.ok (chunks.enum.map (fun p => processChunk p.1 p.2)), false) := by
  have hcm : c ∈ filterP (fun c0 => ¬ c0 ∈ fr.cols) reduce_df_target_cols :=
    mem_filterP.mpr ⟨hc, hmiss⟩
  have hne : ¬ filterP (fun c0 => ¬ c0 ∈ fr.cols) reduce_df_target_cols = [] :=
    fun h => by simp [h] at hcm
  refine ⟨?_, ?_, ?_, ?_⟩
  · simp only [processChunk]
    rw [if_neg hne]
    rfl
  · intro r hr
    simp only [processChunk, if_neg hne, Frame.select, foldl_addZeroCol_rows,
      List.map_map, List.mem_map, Function.comp] at hr
    obtain ⟨r0, hr0, rfl⟩ := hr
    rw [Row.get_build hc]
    rw [Row.get_append_right (by rw [hwf r0 hr0]; exact hmiss)]
    exact Row.get_build hcm (fun _ => Value.num 0)
  · simp only [processChunk, if_neg hne]
    exact List.mem_map.mpr ⟨c, hcm, rfl⟩
  · unfold reduce_df_run
    rw [reduce_df_chunks_map_some chunks 0]
    rfl

theorem reduce_df_fills_missing_columns_witness :
    ((∀ r ∈ exC8.rows, r.map Prod.fst = exC8.cols) ∧
      "pageviews" ∈ reduce_df_target_cols ∧ ¬ "pageviews" ∈ exC8.cols) ∧
    ((processChunk 3 exC8).1.cols = reduce_df_target_cols ∧
     (∀ r ∈ (processChunk 3 exC8).1.rows, Row.get r "pageviews" = Value.num 0) ∧
     missingMsg "pageviews" 3 ∈ (processChunk 3 exC8).2 ∧
     reduce_df_run ([exGoodChunk].map some)
       = (Except.ok ([exGoodChunk].enum.map (fun p => processChunk p.1 p.2)), false)) :=
  ⟨⟨by decide, by decide, by decide⟩,
   reduce_df_fills_missing_columns 3 exC8 "pageviews" (by decide) (by decide) (by decide)
     [exGoodChunk]⟩

/-! ## C7: `add_mean_time_between_visits` -/

/-- C7: in the dataframe returned by `add_mean_time_between_visits`, the
new `mean_intervisit_time` column holds, row for row,
`days_first_to_last_visit / (totalVisits_mean - 1)` whenever
`totalVisits_mean > 1`, and `0` otherwise (in particular whenever
`totalVisits_mean ≤ 1`). -/
theorem add_mean_time_between_visits_spec (df : Frame)
    (h : ∀ r ∈ df.rows, ¬ "mean_intervisit_time" ∈ r.map Prod.fst) :
    (add_mean_time_between_visits df).rows.map (fun r => Row.get r "mean_intervisit_time")
      = df.rows.map (fun r => Value.num
          (match Row.get r "totalVisits_mean" with
           | .num tv => if 1 < tv then (Row.get r "days_first_to_last_visit").toQ / (tv - 1) else 0
           | _ => 0)) := by
  obtain ⟨cs, rows⟩ := df
  simp only [add_mean_time_between_visits] at *
  induction rows with
  | nil => rfl
  | cons r rest ih =>
    simp only [List.map_cons, List.zip_cons_cons, List.zipWith_cons_cons, List.cons.injEq]
    constructor
    · rw [Row.get_append_right (h r (List.mem_cons_self r rest))]
      cases hv : Row.get r "totalVisits_mean" with
      | num tv =>
        by_cases htv : 1 < tv
        · simp [Row.get, htv, hv, Value.toQ]
        · simp [Row.get, htv, hv]
      | str s => simp [Row.get, hv]
      | null => simp [Row.get, hv]
    · exact ih (fun r0 hr0 => h r0 (List.mem_cons_of_mem r hr0))

theorem add_mean_time_between_visits_witness :
    (∀ r ∈ exC7.rows, ¬ "mean_intervisit_time" ∈ r.map Prod.fst) ∧
    (add_mean_time_between_visits exC7).rows.map (fun r => Row.get r "mean_intervisit_time")
      = [Value.num 0, Value.num 15] := by
  refine ⟨by decide, ?_⟩
  rw [add_mean_time_between_visits_spec exC7 (by decide)]
  show [Value.num (if (1:ℚ) < 1 then (1234:ℚ) / (1 - 1) else 0),
        Value.num (if (1:ℚ) < 3 then (30:ℚ) / (3 - 1) else 0)] = [Value.num 0, Value.num 15]
  norm_num

/-! ## C10: the frame effect of `reduce_categories` -/

theorem Row.setVal_keys (r : Row) (c : String) (v : Value) :
    (Row.setVal r c v).map Prod.fst = r.map Prod.fst := by
  induction r with
  | nil => rfl
  | cons p r ih =>
    simp only [Row.setVal, List.map_cons] at ih ⊢
    by_cases hp : p.1 = c
    · simp [if_pos hp, List.map_cons, ih, hp]
    · simp [if_neg hp, List.map_cons, ih]

theorem Row.get_setVal_ne {c0 c : String} (h : ¬ c0 = c) (r : Row) (v : Value) :
    Row.get (Row.setVal r c v) c0 = Row.get r c0 := by
  induction r with
  | nil => rfl
  | cons p r ih =>
    simp only [Row.setVal, List.map_cons] at ih ⊢
    by_cases hp : p.1 = c
    · have hc : ¬ c = c0 := fun he => h he.symm
      have hpc0 : ¬ p.1 = c0 := fun he => hc (hp.symm.trans he)
      simp [Row.get, if_pos hp, hc, hpc0, ih]
    · by_cases hp0 : p.1 = c0
      · simp [Row.get, if_neg hp, hp0, h]
      · simp [Row.get, if_neg hp, hp0, ih]

theorem Row.get_setVal_cases (r : Row) (c : String) (v : Value) :
    Row.get (Row.setVal r c v) c = v ∨ Row.get (Row.setVal r c v) c = Row.get r c := by
  induction r with
  | nil => exact Or.inr rfl
  | cons p r ih =>
    simp only [Row.setVal, List.map_cons] at ih ⊢
    by_cases hp : p.1 = c
    · simp [Row.get, if_pos hp]
    · simp only [Row.get, if_neg hp]
      exact ih

theorem RowRel.refl (ohe : List String) (r : Row) : RowRel ohe r r :=
  ⟨rfl, fun _ _ => rfl, fun _ hc => absurd rfl hc⟩

theorem RowRel.mono {ohe ohe1 : List String} (hsub : ∀ c ∈ ohe, c ∈ ohe1) {r0 r1 : Row}
    (h : RowRel ohe r0 r1) : RowRel ohe1 r0 r1 := by
  refine ⟨h.1, fun c hc => h.2.1 c (fun hm => hc (hsub c hm)), fun c hc => ?_⟩
  obtain ⟨hm, he⟩ := h.2.2 c hc
  exact ⟨hsub c hm, he⟩

theorem RowRel.trans {ohe : List String} {r0 r1 r2 : Row}
    (h01 : RowRel ohe r0 r1) (h12 : RowRel ohe r1 r2) : RowRel ohe r0 r2 := by
  refine ⟨h12.1.trans h01.1, fun c hc => (h12.2.1 c hc).trans (h01.2.1 c hc), fun c hc => ?_⟩
  by_cases h2 : Row.get r2 c = Row.get r1 c
  · obtain ⟨hm, he⟩ := h01.2.2 c (fun h1 => hc (h2.trans h1))
    exact ⟨hm, h2.trans he⟩
  · obtain ⟨hm, he⟩ := h12.2.2 c h2
    exact ⟨hm, he⟩

theorem forall₂_trans_comp (R : α → α → Prop) (htrans : ∀ a b c, R a b → R b c → R a c) :
    ∀ {l1 l2 l3 : List α}, List.Forall₂ R l1 l2 → List.Forall₂ R l2 l3 → List.Forall₂ R l1 l3 := by
  intro l1 l2 l3 h12
  induction h12 generalizing l3 with
  | nil =>
    intro h23
    cases h23
    exact List.Forall₂.nil
  | cons hab h ih =>
    intro h23
    cases h23 with
    | cons hbc h23 => exact List.Forall₂.cons (htrans _ _ _ hab hbc) (ih h23)

theorem rowRel_ite (col : String) (names : List Value) (r : Row) :
    RowRel [col] r (if Row.get r col ∈ names then r else Row.setVal r col other_category) := by
  split
  · exact RowRel.refl _ r
  · refine ⟨Row.setVal_keys r col other_category, fun c hc => ?_, fun c hc => ?_⟩
    · have hcol : ¬ c = col := fun he => hc (by simp [he])
      exact Row.get_setVal_ne hcol r other_category
    · by_cases hcol : c = col
      · subst hcol
        rcases Row.get_setVal_cases r c other_category with he | he
        · exact ⟨by simp, he⟩
        · exact absurd he hc
      · exact absurd (Row.get_setVal_ne hcol r other_category) hc

theorem reduce_categories_step_rowRel (sel : ℚ) (maxc : ℕ) (df : Frame) (col : String) :
    (reduce_categories_step sel maxc df col).cols = df.cols ∧
    List.Forall₂ (RowRel [col]) df.rows (reduce_categories_step sel maxc df col).rows := by
  unfold reduce_categories_step
  split
  · exact ⟨rfl, (List.forall₂_map_right_iff).mpr ((List.forall₂_same).mpr
      (fun r _ => rowRel_ite col _ r))⟩
  · exact ⟨rfl, (List.forall₂_same).mpr (fun r _ => RowRel.refl _ r)⟩

theorem reduce_categories_foldl_rowRel (ohe1 : List String) (sel : ℚ) (maxc : ℕ) :
    ∀ (ohe : List String), (∀ c ∈ ohe, c ∈ ohe1) → ∀ df : Frame,
      (ohe.foldl (reduce_categories_step sel maxc) df).cols = df.cols ∧
      List.Forall₂ (RowRel ohe1) df.rows ((ohe.foldl (reduce_categories_step sel maxc) df).rows) := by
  intro ohe
  induction ohe with
  | nil =>
    intro _ df
    exact ⟨rfl, (List.forall₂_same).mpr (fun r _ => RowRel.refl _ r)⟩
  | cons col rest ih =>
    intro hsub df
    have hstep := reduce_categories_step_rowRel sel maxc df col
    have hrest := ih (fun c hc => hsub c (List.mem_cons_of_mem col hc))
      (reduce_categories_step sel maxc df col)
    have hcol1 : ∀ c ∈ [col], c ∈ ohe1 := by
      intro c hc
      rcases List.mem_cons.mp hc with rfl | hc
      · exact hsub c (List.mem_cons_self c rest)
      · simp at hc
    refine ⟨?_, ?_⟩
    · rw [List.foldl_cons, hrest.1, hstep.1]
    · rw [List.foldl_cons]
      exact forall₂_trans_comp (RowRel ohe1) (fun a b c hab hbc => RowRel.trans hab hbc)
        (List.Forall₂.imp (fun r0 r1 h => RowRel.mono hcol1 h) hstep.2) hrest.2

/-- C10: `reduce_categories` returns a dataframe with the same column list,
the same row count and order, identical column keys in every row, every
column outside `ohe_reduce` value-for-value unchanged, and any changed
value sitting in a listed column and equal to the sentinel
`"other category"` (the content of `RowRel`). -/
theorem reduce_categories_frame_effect (df : Frame) (ohe_reduce : List String)
    (selec_top_per : ℚ) (max_cat : ℕ) :
    (reduce_categories df ohe_reduce selec_top_per max_cat).cols = df.cols ∧
    (reduce_categories df ohe_reduce selec_top_per max_cat).rows.length = df.rows.length ∧
    List.Forall₂ (RowRel ohe_reduce) df.rows
      (reduce_categories df ohe_reduce selec_top_per max_cat).rows := by
  have h := reduce_categories_foldl_rowRel ohe_reduce selec_top_per max_cat ohe_reduce
    (fun _ hc => hc) df
  exact ⟨h.1, h.2.length_eq.symm, h.2⟩

theorem reduce_categories_frame_effect_witness :
    (reduce_categories exC2 ["cat"] (7/10) 2).cols = exC2.cols :=
  (reduce_categories_frame_effect exC2 ["cat"] (7/10) 2).1

/-! ## C6: one row per visitor out of `aggregate` -/

theorem natsorted_perm (cs : List String) : (natsorted cs).Perm cs :=
  List.perm_insertionSort _ cs

theorem filterP_sublist (P : α → Prop) [DecidablePred P] : ∀ l : List α, (filterP P l).Sublist l
  | [] => List.Sublist.refl []
  | a :: l => by
    by_cases h : P a
    · simpa [filterP, if_pos h] using List.Sublist.cons₂ a (filterP_sublist P l)
    · simpa [filterP, if_neg h] using List.Sublist.cons a (filterP_sublist P l)

theorem filterP_nodup {P : α → Prop} [DecidablePred P] {l : List α} (h : l.Nodup) :
    (filterP P l).Nodup :=
  (filterP_sublist P l).nodup h

theorem innerMergeOn_keys_aux (k : String) (rrows : List Row)
    (hR : (rrows.map (fun rr => Row.get rr k)).Nodup) :
    ∀ lrows : List Row,
      (∀ lr ∈ lrows, k ∈ lr.map Prod.fst) →
      lrows.flatMap (fun lr =>
        (filterP (fun rr => Row.get rr k = Row.get lr k) rrows).map
          (fun rr => Row.get (lr ++ filterP (fun p => ¬ p.1 = k) rr) k))
        = filterP (fun v => v ∈ rrows.map (fun rr => Row.get rr k))
            (lrows.map (fun lr => Row.get lr k)) := by
  intro lrows
  induction lrows with
  | nil => intro _; rfl
  | cons lr rest ih =>
    intro h1
    rw [List.flatMap_cons, List.map_cons,
      ih (fun r hr => h1 r (List.mem_cons_of_mem lr hr))]
    by_cases hm : Row.get lr k ∈ rrows.map (fun rr => Row.get rr k)
    · obtain ⟨rr0, hrr0⟩ := List.length_eq_one.mp (filterP_length_one hR hm)
      rw [hrr0, List.map_cons, List.map_nil,
        Row.get_append_left (h1 lr (List.mem_cons_self lr rest))]
      simp only [filterP, if_pos hm]
      rfl
    · rw [filterP_eq_nil_of_not_mem hm, List.map_nil]
      simp only [filterP, if_neg hm]
      rfl

theorem innerMergeOn_keys (k : String) (l r : Frame)
    (hl : ∀ lr ∈ l.rows, k ∈ lr.map Prod.fst)
    (hR : (r.rows.map (fun rr => Row.get rr k)).Nodup) :
    (innerMergeOn k l r).rows.map (fun row => Row.get row k)
      = filterP (fun v => v ∈ r.rows.map (fun rr => Row.get rr k))
          (l.rows.map (fun lr => Row.get lr k)) := by
  simp only [innerMergeOn, List.map_flatMap, List.map_map, Function.comp]
  exact innerMergeOn_keys_aux k r.rows hR l.rows hl

theorem groupbySum_keys (df : Frame) (key : String) (cs : List String) :
    (groupbySum df key cs).rows.map (fun r => Row.get r key) = df.groupKeys key := by
  simp only [groupbySum, List.map_map]
  rw [List.map_congr_left (g := id) (fun v _ => by simp [Row.get, Function.comp]), List.map_id]

theorem pivot_wide_keys (df : Frame) :
    (pivot_wide df).rows.map (fun r => Row.get r "fullVisitorId")
      = filterP (pivotKeeps df) (df.groupKeys "fullVisitorId") := by
  simp only [pivot_wide, List.map_map]
  rw [List.map_congr_left (g := id) (fun v _ => by simp [Row.get, Function.comp]), List.map_id]

theorem groupbySum_rows_key_mem (df : Frame) (key : String) (cs : List String) :
    ∀ lr ∈ (groupbySum df key cs).rows, key ∈ lr.map Prod.fst := by
  intro lr hlr
  simp only [groupbySum, List.mem_map] at hlr
  obtain ⟨v, hv, rfl⟩ := hlr
  simp

/-- C6: `aggregate` returns exactly one row per visitor present in both
sides of the inner merge: the visitor ids of its rows are the distinct
non-null visitor ids of the input (the key set of the static aggregate, by
`groupbySum_keys`) filtered to those that also keep a row in the dynamic
pivot — a visitor all of whose dynamic metrics are NaN is dropped by the
pivot's `dropna` and so does not appear — and the id list has no
duplicates, so each such visitor gets exactly one row. -/
theorem aggregate_one_row_per_visitor (df : Frame) (h : "fullVisitorId" ∈ df.cols) :
    (aggregate df).rows.map (fun r => Row.get r "fullVisitorId")
      = filterP (fun v => v ∈ (pivot_wide df).rows.map (fun r => Row.get r "fullVisitorId"))
          (df.groupKeys "fullVisitorId") ∧
    ((aggregate df).rows.map (fun r => Row.get r "fullVisitorId")).Nodup := by
  have hstat : "fullVisitorId" ∈ filterP
      (fun c => ¬ c ∈ dynamic_columns ∧ ¬ c = "date" ∧ ¬ c = "date_temp") df.cols :=
    mem_filterP.mpr ⟨h, by decide⟩
  have hsel : (df.select (filterP
      (fun c => ¬ c ∈ dynamic_columns ∧ ¬ c = "date" ∧ ¬ c = "date_temp") df.cols)).groupKeys
        "fullVisitorId" = df.groupKeys "fullVisitorId" := by
    unfold Frame.groupKeys Frame.colValues
    rw [Frame.select_rows_get df hstat]
  have hmain : (aggregate df).rows.map (fun r => Row.get r "fullVisitorId")
      = filterP (fun v => v ∈ (pivot_wide df).rows.map (fun r => Row.get r "fullVisitorId"))
          (df.groupKeys "fullVisitorId") := by
    unfold aggregate
    rw [Frame.select_rows_get]
    · rw [innerMergeOn_keys]
      · rw [groupbySum_keys, hsel]
      · exact groupbySum_rows_key_mem _ _ _
      · rw [pivot_wide_keys]
        exact filterP_nodup (Frame.groupKeys_nodup df "fullVisitorId")
    · rw [(natsorted_perm _).mem_iff]
      simp [innerMergeOn, groupbySum]
  refine ⟨hmain, ?_⟩
  rw [hmain]
  exact filterP_nodup (Frame.groupKeys_nodup df "fullVisitorId")

theorem aggregate_one_row_per_visitor_witness :
    ("fullVisitorId" ∈ exC6.cols) ∧
    ((aggregate exC6).rows.map (fun r => Row.get r "fullVisitorId")
       = filterP (fun v => v ∈ (pivot_wide exC6).rows.map (fun r => Row.get r "fullVisitorId"))
           (exC6.groupKeys "fullVisitorId") ∧
     ((aggregate exC6).rows.map (fun r => Row.get r "fullVisitorId")).Nodup) :=
  ⟨by decide, aggregate_one_row_per_visitor exC6 (by decide)⟩

/-! ## C3: alignment out of the `split_data` tail -/

/-- C3: after the tail of `split_data`, the returned `x_train` and
`y_train` carry identical `fullVisitorId` columns (hence equal visitor
sets — the inner-merge realignment), and the returned `x_train` and
`x_test` carry the same column list (the train/test intersection). -/
theorem split_data_tail_alignment (xtr ytr xte : Frame)
    (h1 : "fullVisitorId" ∈ xtr.cols) (h2 : "fullVisitorId" ∈ ytr.cols)
    (h3 : "fullVisitorId" ∈ xte.cols) :
    ((split_data_tail xtr ytr xte).1.rows.map (fun r => Row.get r "fullVisitorId")
      = (split_data_tail xtr ytr xte).2.1.rows.map (fun r => Row.get r "fullVisitorId")) ∧
    (split_data_tail xtr ytr xte).1.cols = (split_data_tail xtr ytr xte).2.2.cols := by
  have hnames : "fullVisitorId" ∈ filterP (fun c => c ∈ xte.cols) xtr.cols :=
    mem_filterP.mpr ⟨h1, h3⟩
  unfold split_data_tail
  refine ⟨?_, rfl⟩
  rw [Frame.select_rows_get _ hnames, Frame.select_rows_get _ h1,
    Frame.select_rows_get _ h2]

theorem split_data_tail_alignment_witness :
    ("fullVisitorId" ∈ exXTrain.cols ∧ "fullVisitorId" ∈ exYTrain.cols ∧
      "fullVisitorId" ∈ exXTest.cols) ∧
    (((split_data_tail exXTrain exYTrain exXTest).1.rows.map
        (fun r => Row.get r "fullVisitorId")
      = (split_data_tail exXTrain exYTrain exXTest).2.1.rows.map
          (fun r => Row.get r "fullVisitorId")) ∧
     (split_data_tail exXTrain exYTrain exXTest).1.cols
       = (split_data_tail exXTrain exYTrain exXTest).2.2.cols) :=
  ⟨⟨by decide, by decide, by decide⟩,
   split_data_tail_alignment exXTrain exYTrain exXTest (by decide) (by decide) (by decide)⟩

/-! ## C2: `reduce_categories` on the worked A/B/C/D example -/

/-- C2: on categories A/B/C/D with target sums 100/80/5/5 and
`selec_top_per=0.7, max_cat=2`, the cumulative-fraction filter keeps only A,
which is fewer than `max_cat`, so the fallback `top.loc[0:min(max_cat,
len(top))]` runs — an inclusive label slice that keeps the top THREE
categories A, B and C. Only D is replaced by `"other category"`: the value
C survives, so at most `max_cat` categories are NOT what the fallback
keeps. -/
theorem reduce_categories_keeps_top_three :
    (reduce_categories exC2 ["cat"] (7/10) 2).rows.map (fun r => Row.get r "cat")
      = [.str "A", .str "B", .str "C", .str "other category"] := by
  with_unfolding_all rfl

/-! ## C1: the per-row indicator sum out of `one_hot_encode_categoricals` -/

/-- C1: `pd.concat` is called without `axis=1`, so the indicator rows are
stacked BELOW the data instead of beside it: on a one-row input the output
has 16 rows, its first row (the original data row) holds NaN in every
generated indicator column, and the per-row sum over the indicator columns
generated from `operatingSystem` (the single column `category__Win`) is 0,
not 1. -/
theorem one_hot_encode_row_sum_not_one :
    (one_hot_encode_categoricals exC1).rows.length = 16 ∧
    rowIndicatorSum ((one_hot_encode_categoricals exC1).rows.getD 0 []) ["category__Win"] = 0 ∧
    ¬ rowIndicatorSum ((one_hot_encode_categoricals exC1).rows.getD 0 [])
        ["category__Win"] = 1 := by
  have h0 : rowIndicatorSum ((one_hot_encode_categoricals exC1).rows.getD 0 [])
      ["category__Win"] = 0 := by with_unfolding_all rfl
  refine ⟨by with_unfolding_all rfl, h0, ?_⟩
  rw [h0]
  norm_num
